import Mathlib

/-!
Shallow embedding of the Vanna tool registry core
(`src/vanna/core/registry.py` and `src/vanna/core/tool/base.py`).

Python exceptions are modelled with `Except String` (the error carries
`str(e)`); the tool catalog (a Python `dict`) is an association list kept
in insertion order; audit-logger calls are modelled as a list of emitted
events returned alongside the result; the two `time.perf_counter()`
readings taken around the tool body are passed in as oracle parameters
`t1 t2 : ℚ` (the Python float clock), with monotonicity (`t1 ≤ t2`)
available as a hypothesis where needed.

The value types (`User`, `ToolCall`, `ToolContext`, `ToolResult`,
`ToolSchema`, `ToolRejection`) live in modules of this repository that are
not part of the sources here (`core/tool/models.py`, `core/user.py`);
they are modelled from the spec, as marked on each.
-/

/-- A single-quote character as a string, used to build the diagnostic messages of the registry without character-literal noise. -/
def squote : String := String.singleton (Char.ofNat 39)

/-- Modelled from the spec: `User` (missing source `core/user.py`) —
identity plus `group_memberships` (set of group identifiers) and
`attributes` (mapping used by transformation hooks). -/
structure User where
  group_memberships : List String
  attributes : List (String × String)
deriving Repr, DecidableEq

/-- Modelled from the spec: `ToolCall` (missing source
`core/tool/models.py`) — a requested invocation: `name` (target tool)
plus `arguments`, an untyped mapping here abstracted as a type `ρ`. -/
structure ToolCall (ρ : Type) where
  name : String
  arguments : ρ
deriving Repr, DecidableEq

/-- Modelled from the spec: `ToolContext` (missing source
`core/tool/models.py`) — the acting `User`, conversation and request
identifiers, and free-form metadata; the registry reads only the
`ui_features_available` entry of the metadata, so metadata values are
modelled as lists of feature names. -/
structure ToolContext where
  user : User
  conversation_id : String
  request_id : String
  metadata : List (String × List String)
deriving Repr, DecidableEq

/-- Modelled from the spec: `ToolResult` (missing source
`core/tool/models.py`) — `success`, `result_for_llm`, optional opaque
`ui_component` (modelled as a string payload), optional `error`, and a
mutable `metadata` mapping into which the registry writes
`execution_time_ms` (a float, modelled as ℚ); a result constructed
without a metadata argument starts with an empty mapping. -/
structure ToolResult where
  success : Bool
  result_for_llm : String
  ui_component : Option String
  error : Option String
  metadata : List (String × ℚ) := []
deriving Repr, DecidableEq

/-- Modelled from the spec: `ToolRejection` (missing source
`core/tool/models.py`) — a sentinel a transformation hook returns instead
of arguments, carrying a `reason` string. -/
structure ToolRejection where
  reason : String
deriving Repr, DecidableEq

/-- Modelled from the spec: `ToolSchema` (missing source
`core/tool/models.py`) — the published description of a tool: name,
description, JSON-schema-shaped parameter description (abstracted as a
type `J`; `none` stands for the empty schema `{}` produced when the
argument model has no `model_json_schema`), and access groups. -/
structure ToolSchema (J : Type) where
  name : String
  description : String
  parameters : Option J
  access_groups : List String
deriving Repr, DecidableEq

/-- The Pydantic argument-model class returned by `get_args_schema`
(`base.py`): it can validate/parse raw arguments `ρ` into typed
arguments `α` (`model_validate`, any raised error modelled as
`Except.error` with its `str`), and may offer a JSON schema
(`model_json_schema`; `none` models a class without that attribute). -/
structure ArgsSchema (ρ α J : Type) where
  model_validate : ρ → Except String α
  model_json_schema : Option J

/-- A tool (`Tool` in `base.py`): name, description, access groups
(empty by default in the base class), the argument schema class, and the
execute body, which may raise (`Except.error` carries `str(e)`). -/
structure Tool (ρ α J : Type) where
  name : String
  description : String
  access_groups : List String
  get_args_schema : ArgsSchema ρ α J
  execute : ToolContext → α → Except String ToolResult

/-- `Tool.get_schema` from `base.py`: combines name, description, the
JSON schema of the argument model (or `{}` when absent, here the `Option`
itself), and access groups into a `ToolSchema`. -/
def Tool.get_schema {ρ α J : Type} (t : Tool ρ α J) : ToolSchema J :=
  { name := t.name
    description := t.description
    parameters := t.get_args_schema.model_json_schema
    access_groups := t.access_groups }

/-- `_LocalToolWrapper` from `registry.py`: wraps a tool, overriding only
`access_groups`; `name`, `description`, `get_args_schema` and `execute`
delegate to the wrapped tool. -/
def localToolWrapper {ρ α J : Type} (wrapped_tool : Tool ρ α J)
    (access_groups : List String) : Tool ρ α J :=
  { name := wrapped_tool.name
    description := wrapped_tool.description
    access_groups := access_groups
    get_args_schema := wrapped_tool.get_args_schema
    execute := wrapped_tool.execute }

/-- `AuditConfig` flags read by the registry (`agent/config.py`, not in
the sources; modelled from the spec: four independent boolean switches
gating each audit call site). -/
structure AuditConfig where
  log_tool_access_checks : Bool
  log_tool_invocations : Bool
  log_tool_results : Bool
  sanitize_tool_parameters : Bool
deriving Repr, DecidableEq

/-- One call into the audit collaborator, as emitted by
`ToolRegistry.execute` (the `context` argument, identical on every call
of one invocation, is left implicit). -/
inductive AuditEvent (ρ : Type) where
  | accessCheck (user : User) (tool_name : String) (access_granted : Bool)
      (required_groups : List String) (reason : Option String)
  | invocationLog (user : User) (tool_call : ToolCall ρ)
      (ui_features : List String) (sanitize_parameters : Bool)
  | resultLog (user : User) (tool_call : ToolCall ρ) (result : ToolResult)
deriving Repr, DecidableEq

/-- Whether an audit event is a `log_tool_result` call. -/
def AuditEvent.isResultLog {ρ : Type} : AuditEvent ρ → Bool
  | .resultLog _ _ _ => true
  | _ => false

/-- Python `d[k] = v` on a string-keyed dict: replace in place if the key
exists, else append. -/
def dictInsert (m : List (String × ℚ)) (k : String) (v : ℚ) :
    List (String × ℚ) :=
  if m.any (fun p => p.1 == k) then
    m.map (fun p => if p.1 == k then (k, v) else p)
  else m ++ [(k, v)]

/-- Python `d.get(k)` on a string-keyed dict. -/
def dictGet (m : List (String × ℚ)) (k : String) : Option ℚ :=
  (m.find? (fun p => p.1 == k)).map (fun p => p.2)

/-- `context.metadata.get ("ui_features_available", [])` from
`registry.py` step 5b. -/
def ToolContext.uiFeatures (context : ToolContext) : List String :=
  ((context.metadata.find? (fun p => p.1 == "ui_features_available")).map
    (fun p => p.2)).getD []

/-- The outcome of `transform_args`: either (possibly transformed)
arguments or a `ToolRejection` (Python `Union[T, ToolRejection]`). -/
inductive TransformOutcome (α : Type) where
  | arguments (a : α)
  | rejected (r : ToolRejection)
deriving Repr, DecidableEq

/-- `ToolRegistry` state (`registry.py`): the name-keyed tool catalog
(insertion-ordered), presence of the optional audit logger, the audit
configuration, and the `transform_args` hook — a method with a no-op
default that subclasses override, modelled as a strategy field. -/
structure ToolRegistry (ρ α J : Type) where
  tools : List (String × Tool ρ α J)
  audit_logger : Bool
  audit_config : AuditConfig
  transform_args : Tool ρ α J → α → User → ToolContext → TransformOutcome α

/-- The default `transform_args` body from `registry.py`: no
transformation, return the arguments unchanged. -/
def defaultTransformArgs {ρ α J : Type} :
    Tool ρ α J → α → User → ToolContext → TransformOutcome α :=
  fun _ args _ _ => TransformOutcome.arguments args

/-- `ToolRegistry.get_tool`: dictionary lookup by name. -/
def ToolRegistry.get_tool {ρ α J : Type} (reg : ToolRegistry ρ α J)
    (name : String) : Option (Tool ρ α J) :=
  (reg.tools.find? (fun p => p.1 == name)).map (fun p => p.2)

/-- `ToolRegistry.list_tools`: all registered tool names in insertion
order. -/
def ToolRegistry.list_tools {ρ α J : Type} (reg : ToolRegistry ρ α J) :
    List String :=
  reg.tools.map (fun p => p.1)

/-- `ToolRegistry._validate_tool_permissions`: grant when the tool has no
access groups; otherwise grant exactly when the group memberships of the user
intersect the access groups of the tool (`bool(user_groups & tool_groups)`). -/
def validate_tool_permissions {ρ α J : Type} (tool : Tool ρ α J)
    (user : User) : Bool :=
  if tool.access_groups.isEmpty then true
  else user.group_memberships.any (fun g => tool.access_groups.contains g)

/-- The message of the `ValueError` raised by `register_local_tool` on a
duplicate name. -/
def alreadyRegisteredMsg (name : String) : String :=
  "Tool " ++ squote ++ name ++ squote ++ " already registered"

/-- `ToolRegistry.register_local_tool`: raise (`Except.error`) if the
name is already present; otherwise insert the tool, wrapped with the
given access groups when that list is non-empty (Python truthiness of
`access_groups`), as-is when it is empty. -/
def ToolRegistry.register_local_tool {ρ α J : Type}
    (reg : ToolRegistry ρ α J) (tool : Tool ρ α J)
    (access_groups : List String) :
    Except String (ToolRegistry ρ α J) :=
  if reg.tools.any (fun p => p.1 == tool.name) then
    Except.error (alreadyRegisteredMsg tool.name)
  else if access_groups.isEmpty then
    Except.ok { reg with tools := reg.tools ++ [(tool.name, tool)] }
  else
    Except.ok { reg with tools :=
      reg.tools ++ [(tool.name, localToolWrapper tool access_groups)] }

/-- `ToolRegistry.get_schemas`: one pass over the catalog in insertion
order, keeping the schema of a tool when no user is given or the user passes
the permission check. -/
def ToolRegistry.get_schemas {ρ α J : Type} (reg : ToolRegistry ρ α J)
    (user : Option User) : List (ToolSchema J) :=
  reg.tools.foldl
    (fun schemas p =>
      if user.elim true (fun u => validate_tool_permissions p.2 u) then
        schemas ++ [p.2.get_schema]
      else schemas)
    []

/-- The Tool-name-not-found message (quoting the name) from step 1 of
`ToolRegistry.execute`. -/
def notFoundMsg (name : String) : String :=
  "Tool " ++ squote ++ name ++ squote ++ " not found"

/-- The insufficient-group-access message (quoting the name) from
step 2 of `ToolRegistry.execute`. -/
def insufficientAccessMsg (name : String) : String :=
  "Insufficient group access for tool " ++ squote ++ name ++ squote

/-- A terminal failure `ToolResult` as constructed inside
`ToolRegistry.execute`: `success=False`, `result_for_llm` and `error`
both the message, no UI component, default (empty) metadata. -/
def failureResult (msg : String) : ToolResult :=
  { success := false
    result_for_llm := msg
    ui_component := none
    error := some msg }

/-- `ToolRegistry.execute` from `registry.py`, returning the result
together with the audit events emitted, in order.  `t1` and `t2` are the
two `time.perf_counter()` readings taken around the tool body. -/
def ToolRegistry.execute {ρ α J : Type} (reg : ToolRegistry ρ α J)
    (tool_call : ToolCall ρ) (context : ToolContext) (t1 t2 : ℚ) :
    ToolResult × List (AuditEvent ρ) :=
  -- Step 1: look up the tool
  match reg.get_tool tool_call.name with
  | none => (failureResult (notFoundMsg tool_call.name), [])
  | some tool =>
    -- Step 2: validate user permission
    if !validate_tool_permissions tool context.user then
      let msg := insufficientAccessMsg tool_call.name
      let evs :=
        if reg.audit_logger && reg.audit_config.log_tool_access_checks then
          [AuditEvent.accessCheck context.user tool_call.name false
            tool.access_groups (some msg)]
        else []
      (failureResult msg, evs)
    else
      -- Step 3: validate and parse arguments
      match tool.get_args_schema.model_validate tool_call.arguments with
      | Except.error e =>
        (failureResult ("Invalid arguments: " ++ e), [])
      | Except.ok validated_args =>
        -- Step 4: transform arguments
        match reg.transform_args tool validated_args context.user context with
        | TransformOutcome.rejected rej =>
          (failureResult rej.reason, [])
        | TransformOutcome.arguments final_args =>
          -- Steps 5a and 5b: audit access grant and invocation
          let evs1 :=
            if reg.audit_logger && reg.audit_config.log_tool_access_checks then
              [AuditEvent.accessCheck context.user tool_call.name true
                tool.access_groups none]
            else []
          let evs2 :=
            if reg.audit_logger && reg.audit_config.log_tool_invocations then
              [AuditEvent.invocationLog context.user tool_call
                context.uiFeatures reg.audit_config.sanitize_tool_parameters]
            else []
          -- Step 6: execute the tool body
          match tool.execute context final_args with
          | Except.error e =>
            (failureResult ("Execution failed: " ++ e), evs1 ++ evs2)
          | Except.ok result =>
            -- timing stamp, then step 7: audit the result
            let execution_time_ms := (t2 - t1) * 1000
            let stamped := { result with
              metadata :=
                dictInsert result.metadata "execution_time_ms" execution_time_ms }
            let evs3 :=
              if reg.audit_logger && reg.audit_config.log_tool_results then
                [AuditEvent.resultLog context.user tool_call stamped]
              else []
            (stamped, evs1 ++ evs2 ++ evs3)

/-- Replace the execute body of every catalog entry stored under `name`,
leaving every other part of the registry and of the tool unchanged.  Used
only to state body-independence: a pipeline outcome that is the same for
every body never invoked the body. -/
def ToolRegistry.withToolExecute {ρ α J : Type} (reg : ToolRegistry ρ α J)
    (name : String) (body : ToolContext → α → Except String ToolResult) :
    ToolRegistry ρ α J :=
  { reg with tools := reg.tools.map (fun p =>
      if p.1 == name then (p.1, { p.2 with execute := body }) else p) }

/-! Helper lemmas about the catalog and the metadata dictionary. -/


/-! Concrete fixtures used by the witness and counterexample theorems. -/

/-- A concrete argument-model: accepts numbers below 100, rejects the
rest with a diagnostic, and publishes a JSON schema. -/
def exSchema : ArgsSchema Nat Nat Nat :=
  { model_validate := fun n =>
      if n < 100 then Except.ok n else Except.error "value too large"
    model_json_schema := some 7 }

/-- The result the concrete echo tool returns. -/
def exResult : ToolResult :=
  { success := true
    result_for_llm := "echoed"
    ui_component := none
    error := none
    metadata := [] }

/-- A concrete tool restricted to the analyst group. -/
def exTool : Tool Nat Nat Nat :=
  { name := "echo"
    description := "echoes a number"
    access_groups := ["analyst"]
    get_args_schema := exSchema
    execute := fun _ _ => Except.ok exResult }

/-- A concrete unrestricted tool whose body always raises. -/
def boomTool : Tool Nat Nat Nat :=
  { name := "boom"
    description := "always raises"
    access_groups := []
    get_args_schema := exSchema
    execute := fun _ _ => Except.error "boom" }

/-- A concrete analyst user. -/
def exUser : User := { group_memberships := ["analyst"], attributes := [] }

/-- A concrete execution context for the analyst user. -/
def exContext : ToolContext :=
  { user := exUser
    conversation_id := "c1"
    request_id := "r1"
    metadata := [] }

/-- A concrete audit configuration with every switch on. -/
def exConfig : AuditConfig :=
  { log_tool_access_checks := true
    log_tool_invocations := true
    log_tool_results := true
    sanitize_tool_parameters := false }

/-- A concrete registry holding the echo and boom tools, with the default
no-op transform hook. -/
def exRegistry : ToolRegistry Nat Nat Nat :=
  { tools := [("echo", exTool), ("boom", boomTool)]
    audit_logger := true
    audit_config := exConfig
    transform_args := defaultTransformArgs }

/-- The concrete registry with a transform hook overridden to reject
every call with reason x. -/
def rejRegistry : ToolRegistry Nat Nat Nat :=
  { exRegistry with transform_args := fun _ _ _ _ =>
      TransformOutcome.rejected { reason := "x" } }

/-! Helper lemmas about the catalog and the metadata dictionary. -/

theorem get_tool_isSome_iff_any {ρ α J : Type} (reg : ToolRegistry ρ α J)
    (name : String) :
    (reg.get_tool name).isSome = reg.tools.any (fun p => p.1 == name) := by
  unfold ToolRegistry.get_tool
  induction reg.tools with
  | nil => rfl
  | cons x xs ih =>
    rw [List.any_cons, List.find?_cons]
    cases hx : (x.1 == name) with
    | true => simp [hx]
    | false => simpa [hx] using ih

theorem find?_map_preserving {β : Type} (q : β → Bool) (f : β → β)
    (hf : ∀ x, q (f x) = q x) (l : List β) :
    (l.map f).find? q = (l.find? q).map f := by
  induction l with
  | nil => rfl
  | cons x xs ih =>
    rw [List.map_cons, List.find?_cons, List.find?_cons]
    cases hx : q x with
    | true => simp [hf, hx]
    | false => simp [hf, hx, ih]

theorem get_tool_withToolExecute {ρ α J : Type} (reg : ToolRegistry ρ α J)
    (name : String) (body : ToolContext → α → Except String ToolResult)
    (t : Tool ρ α J) (h : reg.get_tool name = some t) :
    (reg.withToolExecute name body).get_tool name =
      some { t with execute := body } := by
  unfold ToolRegistry.get_tool at h ⊢
  unfold ToolRegistry.withToolExecute
  obtain ⟨p0, hfind, hp2⟩ :
      ∃ p0, reg.tools.find? (fun p => p.1 == name) = some p0 ∧ p0.2 = t := by
    cases hf : reg.tools.find? (fun p => p.1 == name) with
    | none => rw [hf] at h; exact absurd h (by simp)
    | some p0 => rw [hf] at h; exact ⟨p0, rfl, by simpa using h⟩
  have hkey : (p0.1 == name) = true := by
    simpa using List.find?_some hfind
  have hfq : ∀ p : String × Tool ρ α J,
      ((if p.1 == name then (p.1, { p.2 with execute := body }) else p).1
        == name) = (p.1 == name) := by
    intro p
    cases hp : (p.1 == name) with
    | true => rw [if_pos rfl]; exact hp
    | false => rw [if_neg (by simp)]; exact hp
  rw [find?_map_preserving (fun p => p.1 == name)
    (fun p => if p.1 == name then (p.1, { p.2 with execute := body }) else p)
    hfq reg.tools, hfind]
  simp only [Option.map_some']
  rw [if_pos hkey, hp2]

theorem find?_overwrite (m : List (String × ℚ)) (k : String) (v : ℚ)
    (h : m.any (fun p => p.1 == k) = true) :
    (m.map (fun p => if p.1 == k then (k, v) else p)).find?
      (fun p => p.1 == k) = some (k, v) := by
  induction m with
  | nil => simp at h
  | cons x xs ih =>
    rw [List.map_cons, List.find?_cons]
    cases hx : (x.1 == k) with
    | true =>
      rw [if_pos rfl]
      simp
    | false =>
      rw [if_neg (by simp)]
      rw [List.any_cons, hx, Bool.false_or] at h
      simpa [hx] using ih h

theorem find?_append_single (m : List (String × ℚ)) (k : String) (v : ℚ)
    (h : m.any (fun p => p.1 == k) = false) :
    (m ++ [(k, v)]).find? (fun p => p.1 == k) = some (k, v) := by
  induction m with
  | nil => simp
  | cons x xs ih =>
    rw [List.any_cons] at h
    have hx : (x.1 == k) = false := by
      cases hc : (x.1 == k)
      · rfl
      · rw [hc, Bool.true_or] at h; exact absurd h (by simp)
    have hxs : xs.any (fun p => p.1 == k) = false := by
      rw [hx, Bool.false_or] at h; exact h
    rw [List.cons_append, List.find?_cons]
    simpa [hx] using ih hxs

theorem dictGet_dictInsert (m : List (String × ℚ)) (k : String) (v : ℚ) :
    dictGet (dictInsert m k v) k = some v := by
  unfold dictGet dictInsert
  cases hany : m.any (fun p => p.1 == k) with
  | true => rw [if_pos rfl, find?_overwrite m k v hany]; rfl
  | false => rw [if_neg (by simp), find?_append_single m k v hany]; rfl

theorem foldl_filter_map {β γ : Type} (p : β → Bool) (f : β → γ) :
    ∀ (l : List β) (acc : List γ),
      l.foldl (fun acc x => if p x then acc ++ [f x] else acc) acc =
        acc ++ (l.filter p).map f := by
  intro l
  induction l with
  | nil => intro acc; simp
  | cons x xs ih =>
    intro acc
    rw [List.foldl_cons]
    cases hx : p x with
    | true =>
      rw [if_pos rfl, ih, List.filter_cons_of_pos hx, List.map_cons]
      simp
    | false =>
      rw [if_neg (by simp), ih, List.filter_cons_of_neg (by simp [hx])]

/-- C1: for every tool and user, the access-check predicate
(`_validate_tool_permissions`) returns true exactly when the access
groups of the tool are empty or some group of the user lies in them; in
particular it returns true for every user when the access groups are
empty. -/
theorem check_access_characterization {ρ α J : Type} (tool : Tool ρ α J)
    (user : User) :
    validate_tool_permissions tool user = true ↔
      (tool.access_groups = [] ∨
        ∃ g, g ∈ user.group_memberships ∧ g ∈ tool.access_groups) := by
  unfold validate_tool_permissions
  by_cases he : tool.access_groups.isEmpty = true
  · rw [if_pos he]
    simp [List.isEmpty_iff.mp he]
  · rw [if_neg he]
    have hne : tool.access_groups ≠ [] := by
      simpa [List.isEmpty_iff] using he
    simp [List.any_eq_true, hne]

/-- C2: executing a call whose name is not in the catalog yields a
failure result whose `error` and `result_for_llm` both name the missing
tool; `execute` is a total function, so no exception escapes. -/
theorem execute_unknown_tool_fails {ρ α J : Type} (reg : ToolRegistry ρ α J)
    (tool_call : ToolCall ρ) (context : ToolContext) (t1 t2 : ℚ)
    (h : reg.get_tool tool_call.name = none) :
    reg.execute tool_call context t1 t2 =
      (failureResult (notFoundMsg tool_call.name), []) ∧
    (failureResult (notFoundMsg tool_call.name)).success = false ∧
    (failureResult (notFoundMsg tool_call.name)).error =
      some (notFoundMsg tool_call.name) ∧
    (failureResult (notFoundMsg tool_call.name)).result_for_llm =
      notFoundMsg tool_call.name := by
  refine ⟨?_, rfl, rfl, rfl⟩
  unfold ToolRegistry.execute
  rw [h]

/-- Witness for C2 at a concrete registry and an unregistered name. -/
theorem execute_unknown_tool_fails_witness :
    exRegistry.get_tool "nope" = none ∧
    (exRegistry.execute ⟨"nope", 5⟩ exContext 0 1 =
      (failureResult (notFoundMsg "nope"), []) ∧
    (failureResult (notFoundMsg "nope")).success = false ∧
    (failureResult (notFoundMsg "nope")).error =
      some (notFoundMsg "nope") ∧
    (failureResult (notFoundMsg "nope")).result_for_llm =
      notFoundMsg "nope") :=
  ⟨rfl, execute_unknown_tool_fails exRegistry ⟨"nope", 5⟩ exContext 0 1 rfl⟩

/-- C6: registering a second tool under an already-present name fails
with the duplicate-name conflict error (the `ValueError` of
`register_local_tool`) instead of overwriting; the catalog is untouched
by the failed call, so the first tool is still the one found under the
name. -/
theorem register_duplicate_fails {ρ α J : Type} (reg : ToolRegistry ρ α J)
    (t0 tool2 : Tool ρ α J) (ag2 : List String)
    (h : reg.get_tool tool2.name = some t0) :
    reg.register_local_tool tool2 ag2 =
      Except.error (alreadyRegisteredMsg tool2.name) ∧
    reg.get_tool tool2.name = some t0 := by
  refine ⟨?_, h⟩
  have hany : reg.tools.any (fun p => p.1 == tool2.name) = true := by
    rw [← get_tool_isSome_iff_any, h]; rfl
  unfold ToolRegistry.register_local_tool
  rw [if_pos hany]

/-- Witness for C6: in the concrete registry, re-registering a tool named
echo fails and the original echo tool stays queryable. -/
theorem register_duplicate_fails_witness :
    exRegistry.get_tool exTool.name = some exTool ∧
    (exRegistry.register_local_tool exTool ["admin"] =
      Except.error (alreadyRegisteredMsg exTool.name) ∧
    exRegistry.get_tool exTool.name = some exTool) :=
  ⟨rfl, register_duplicate_fails exRegistry exTool exTool ["admin"] rfl⟩

/-- C9: `get_schemas` with no user returns one schema per registered tool
in catalog order, unfiltered; with a user it returns exactly the schemas
of the tools the access-check predicate grants that user, one schema per
qualifying tool. -/
theorem get_schemas_filtering {ρ α J : Type} (reg : ToolRegistry ρ α J) :
    reg.get_schemas none = reg.tools.map (fun p => p.2.get_schema) ∧
    ∀ u : User, reg.get_schemas (some u) =
      (reg.tools.filter (fun p => validate_tool_permissions p.2 u)).map
        (fun p => p.2.get_schema) := by
  constructor
  · unfold ToolRegistry.get_schemas
    have h1 := foldl_filter_map
      (fun p : String × Tool ρ α J =>
        (none : Option User).elim true (fun u => validate_tool_permissions p.2 u))
      (fun p : String × Tool ρ α J => p.2.get_schema) reg.tools []
    refine Eq.trans h1 ?_
    rw [List.nil_append]
    have hp : (fun p : String × Tool ρ α J =>
        (none : Option User).elim true
          (fun u => validate_tool_permissions p.2 u)) =
        (fun _ => true) := by
      funext p; rfl
    rw [hp, List.filter_true]
  · intro u
    unfold ToolRegistry.get_schemas
    have h1 := foldl_filter_map
      (fun p : String × Tool ρ α J =>
        (some u).elim true (fun v => validate_tool_permissions p.2 v))
      (fun p : String × Tool ρ α J => p.2.get_schema) reg.tools []
    refine Eq.trans h1 ?_
    rw [List.nil_append]
    have hp : (fun p : String × Tool ρ α J =>
        (some u).elim true (fun v => validate_tool_permissions p.2 v)) =
        (fun p => validate_tool_permissions p.2 u) := by
      funext p; rfl
    rw [hp]

/-- Counterexample to C8 as stated: for the concrete analyst-restricted
echo tool wrapped with the override group list, the derived `get_schema`
of the wrapper does not agree with the own `get_schema` of the wrapped
tool — the published access groups differ. -/
theorem wrapper_get_schema_differs :
    ¬ ((localToolWrapper exTool ["viewer"]).get_schema =
        exTool.get_schema) := by
  intro h
  have h2 := congrArg ToolSchema.access_groups h
  simp [localToolWrapper, Tool.get_schema, exTool] at h2

/-- C8 (amended): the wrapper forwards `name`, `description`,
`get_args_schema` and `execute` verbatim and returns the override as
`access_groups`; consequently the derived `get_schema` equals the schema
of the wrapped tool with only its `access_groups` field replaced by the
override. -/
theorem wrapper_forwarding {ρ α J : Type} (t : Tool ρ α J)
    (ag : List String) :
    (localToolWrapper t ag).name = t.name ∧
    (localToolWrapper t ag).description = t.description ∧
    (localToolWrapper t ag).get_args_schema = t.get_args_schema ∧
    (localToolWrapper t ag).execute = t.execute ∧
    (localToolWrapper t ag).access_groups = ag ∧
    (localToolWrapper t ag).get_schema =
      { t.get_schema with access_groups := ag } :=
  ⟨rfl, rfl, rfl, rfl, rfl, rfl⟩

/-- C3: when the tool is found and access is granted but the schema
rejects the arguments (any raised error), `execute` returns the uniform
failure with the diagnostic, before any audit event; the outcome is the
same for every possible tool body, so the body is never invoked. -/
theorem execute_invalid_args_fails {ρ α J : Type} (reg : ToolRegistry ρ α J)
    (tool_call : ToolCall ρ) (context : ToolContext) (t1 t2 : ℚ)
    (tool : Tool ρ α J) (e : String)
    (hfound : reg.get_tool tool_call.name = some tool)
    (hacc : validate_tool_permissions tool context.user = true)
    (hval : tool.get_args_schema.model_validate tool_call.arguments =
      Except.error e) :
    reg.execute tool_call context t1 t2 =
      (failureResult ("Invalid arguments: " ++ e), []) ∧
    ∀ body, (reg.withToolExecute tool_call.name body).execute
        tool_call context t1 t2 =
      (failureResult ("Invalid arguments: " ++ e), []) := by
  constructor
  · unfold ToolRegistry.execute
    rw [hfound]
    simp [hacc, hval]
  · intro body
    have hfound2 := get_tool_withToolExecute reg tool_call.name body tool hfound
    have hacc2 : validate_tool_permissions
        { tool with execute := body } context.user = true := hacc
    have hval2 : ({ tool with execute := body } :
        Tool ρ α J).get_args_schema.model_validate tool_call.arguments =
        Except.error e := hval
    unfold ToolRegistry.execute
    rw [hfound2]
    simp [hacc2, hval2, hval]

/-- Witness for C3: the concrete echo tool rejects the argument 150, the
pipeline returns the Invalid-arguments failure with the diagnostic, and
the outcome is body-independent. -/
theorem execute_invalid_args_fails_witness :
    exRegistry.get_tool "echo" = some exTool ∧
    validate_tool_permissions exTool exContext.user = true ∧
    exTool.get_args_schema.model_validate 150 =
      Except.error "value too large" ∧
    (exRegistry.execute ⟨"echo", 150⟩ exContext 0 1 =
      (failureResult ("Invalid arguments: " ++ "value too large"), []) ∧
    ∀ body, (exRegistry.withToolExecute "echo" body).execute
        ⟨"echo", 150⟩ exContext 0 1 =
      (failureResult ("Invalid arguments: " ++ "value too large"), [])) :=
  ⟨rfl, rfl, rfl,
    execute_invalid_args_fails exRegistry ⟨"echo", 150⟩ exContext 0 1 exTool
      "value too large" rfl rfl rfl⟩

/-- C4: when the transform hook returns a `ToolRejection` with reason
`r` — for every possible tool body — `execute` returns the uniform
failure whose `error` and `result_for_llm` are `r`, emits no audit
events, and is independent of the tool body, so the body is never
invoked. -/
theorem execute_transform_rejection_fails {ρ α J : Type}
    (reg : ToolRegistry ρ α J) (tool_call : ToolCall ρ)
    (context : ToolContext) (t1 t2 : ℚ) (tool : Tool ρ α J) (a : α)
    (r : String)
    (hfound : reg.get_tool tool_call.name = some tool)
    (hacc : validate_tool_permissions tool context.user = true)
    (hval : tool.get_args_schema.model_validate tool_call.arguments =
      Except.ok a)
    (hrej : ∀ body, reg.transform_args { tool with execute := body }
      a context.user context = TransformOutcome.rejected { reason := r }) :
    reg.execute tool_call context t1 t2 = (failureResult r, []) ∧
    ∀ body, (reg.withToolExecute tool_call.name body).execute
        tool_call context t1 t2 = (failureResult r, []) := by
  have hrej0 : reg.transform_args tool a context.user context =
      TransformOutcome.rejected { reason := r } := hrej tool.execute
  constructor
  · unfold ToolRegistry.execute
    rw [hfound]
    simp [hacc, hval, hrej0]
  · intro body
    have hfound2 := get_tool_withToolExecute reg tool_call.name body tool hfound
    have hacc2 : validate_tool_permissions
        { tool with execute := body } context.user = true := hacc
    unfold ToolRegistry.execute
    rw [hfound2]
    simp [ToolRegistry.withToolExecute, hacc2, hacc, hval, hrej body]

/-- Witness for C4: with the transform hook overridden to reject every
call with reason x, the concrete invocation fails with error x, emits no
events, and the outcome is body-independent. -/
theorem execute_transform_rejection_fails_witness :
    rejRegistry.get_tool "echo" = some exTool ∧
    validate_tool_permissions exTool exContext.user = true ∧
    exTool.get_args_schema.model_validate 5 = Except.ok 5 ∧
    (∀ body, rejRegistry.transform_args { exTool with execute := body }
      5 exContext.user exContext =
      TransformOutcome.rejected { reason := "x" }) ∧
    (rejRegistry.execute ⟨"echo", 5⟩ exContext 0 1 =
      (failureResult "x", []) ∧
    ∀ body, (rejRegistry.withToolExecute "echo" body).execute
        ⟨"echo", 5⟩ exContext 0 1 = (failureResult "x", [])) :=
  ⟨rfl, rfl, rfl, fun _ => rfl,
    execute_transform_rejection_fails rejRegistry ⟨"echo", 5⟩ exContext 0 1
      exTool 5 "x" rfl rfl rfl (fun _ => rfl)⟩

/-- C5: when the tool body raises with message `m`, `execute` catches it
and returns the uniform failure prefixed with Execution failed and
carrying `m`; `execute` is a total function into `ToolResult`, so the
raw exception never propagates. -/
theorem execute_body_error_caught {ρ α J : Type} (reg : ToolRegistry ρ α J)
    (tool_call : ToolCall ρ) (context : ToolContext) (t1 t2 : ℚ)
    (tool : Tool ρ α J) (a fa : α) (m : String)
    (hfound : reg.get_tool tool_call.name = some tool)
    (hacc : validate_tool_permissions tool context.user = true)
    (hval : tool.get_args_schema.model_validate tool_call.arguments =
      Except.ok a)
    (htr : reg.transform_args tool a context.user context =
      TransformOutcome.arguments fa)
    (hexec : tool.execute context fa = Except.error m) :
    (reg.execute tool_call context t1 t2).1 =
      failureResult ("Execution failed: " ++ m) := by
  unfold ToolRegistry.execute
  rw [hfound]
  simp [hacc, hval, htr, hexec]

/-- Witness for C5: the concrete boom tool raises with message boom and
the registry returns the Execution-failed result instead. -/
theorem execute_body_error_caught_witness :
    exRegistry.get_tool "boom" = some boomTool ∧
    validate_tool_permissions boomTool exContext.user = true ∧
    boomTool.get_args_schema.model_validate 5 = Except.ok 5 ∧
    exRegistry.transform_args boomTool 5 exContext.user exContext =
      TransformOutcome.arguments 5 ∧
    boomTool.execute exContext 5 = Except.error "boom" ∧
    (exRegistry.execute ⟨"boom", 5⟩ exContext 0 1).1 =
      failureResult ("Execution failed: " ++ "boom") :=
  ⟨rfl, rfl, rfl, rfl, rfl,
    execute_body_error_caught exRegistry ⟨"boom", 5⟩ exContext 0 1 boomTool
      5 5 "boom" rfl rfl rfl rfl rfl⟩

/-- C7: on a non-raising execution the registry returns the very result
the tool produced, with `execution_time_ms` written into its metadata —
present and non-negative under clock monotonicity — and with `success`,
`result_for_llm`, `ui_component` and `error` untouched. -/
theorem execute_success_stamps_timing {ρ α J : Type}
    (reg : ToolRegistry ρ α J) (tool_call : ToolCall ρ)
    (context : ToolContext) (t1 t2 : ℚ) (tool : Tool ρ α J) (a fa : α)
    (res : ToolResult)
    (hmono : t1 ≤ t2)
    (hfound : reg.get_tool tool_call.name = some tool)
    (hacc : validate_tool_permissions tool context.user = true)
    (hval : tool.get_args_schema.model_validate tool_call.arguments =
      Except.ok a)
    (htr : reg.transform_args tool a context.user context =
      TransformOutcome.arguments fa)
    (hexec : tool.execute context fa = Except.ok res) :
    (reg.execute tool_call context t1 t2).1 =
      { res with metadata :=
          dictInsert res.metadata "execution_time_ms" ((t2 - t1) * 1000) } ∧
    dictGet (reg.execute tool_call context t1 t2).1.metadata
      "execution_time_ms" = some ((t2 - t1) * 1000) ∧
    0 ≤ (t2 - t1) * 1000 ∧
    (reg.execute tool_call context t1 t2).1.success = res.success ∧
    (reg.execute tool_call context t1 t2).1.result_for_llm =
      res.result_for_llm ∧
    (reg.execute tool_call context t1 t2).1.ui_component =
      res.ui_component ∧
    (reg.execute tool_call context t1 t2).1.error = res.error := by
  have hmain : (reg.execute tool_call context t1 t2).1 =
      { res with metadata :=
        dictInsert res.metadata "execution_time_ms" ((t2 - t1) * 1000) } := by
    unfold ToolRegistry.execute
    rw [hfound]
    simp [hacc, hval, htr, hexec]
  have hnn : 0 ≤ (t2 - t1) * 1000 :=
    mul_nonneg (sub_nonneg.mpr hmono) (by norm_num)
  refine ⟨hmain, ?_, hnn, ?_, ?_, ?_, ?_⟩
  · rw [hmain]
    exact dictGet_dictInsert res.metadata _ _
  · rw [hmain]
  · rw [hmain]
  · rw [hmain]
  · rw [hmain]

/-- Witness for C7: executing the concrete echo tool with perf-counter
readings 0 and 2 stamps two thousand milliseconds into the metadata of
the returned result and leaves every other field as the tool produced
it. -/
theorem execute_success_stamps_timing_witness :
    (0 : ℚ) ≤ 2 ∧
    exRegistry.get_tool "echo" = some exTool ∧
    validate_tool_permissions exTool exContext.user = true ∧
    exTool.get_args_schema.model_validate 5 = Except.ok 5 ∧
    exRegistry.transform_args exTool 5 exContext.user exContext =
      TransformOutcome.arguments 5 ∧
    exTool.execute exContext 5 = Except.ok exResult ∧
    ((exRegistry.execute ⟨"echo", 5⟩ exContext 0 2).1 =
      { exResult with
        metadata :=
          dictInsert exResult.metadata "execution_time_ms"
            (((2 : ℚ) - 0) * 1000) } ∧
    dictGet (exRegistry.execute ⟨"echo", 5⟩ exContext 0 2).1.metadata
      "execution_time_ms" = some (((2 : ℚ) - 0) * 1000) ∧
    0 ≤ ((2 : ℚ) - 0) * 1000 ∧
    (exRegistry.execute ⟨"echo", 5⟩ exContext 0 2).1.success =
      exResult.success ∧
    (exRegistry.execute ⟨"echo", 5⟩ exContext 0 2).1.result_for_llm =
      exResult.result_for_llm ∧
    (exRegistry.execute ⟨"echo", 5⟩ exContext 0 2).1.ui_component =
      exResult.ui_component ∧
    (exRegistry.execute ⟨"echo", 5⟩ exContext 0 2).1.error =
      exResult.error) :=
  ⟨by norm_num, rfl, rfl, rfl, rfl, rfl,
    execute_success_stamps_timing exRegistry ⟨"echo", 5⟩ exContext 0 2
      exTool 5 5 exResult (by norm_num) rfl rfl rfl rfl rfl⟩

/-- C10: when the tool body raises, the failure result `execute` returns
is freshly constructed with empty metadata — in particular no
`execution_time_ms` entry — and no `log_tool_result` audit event is
emitted for the invocation. -/
theorem execute_body_error_no_stamp_no_result_audit {ρ α J : Type}
    (reg : ToolRegistry ρ α J) (tool_call : ToolCall ρ)
    (context : ToolContext) (t1 t2 : ℚ) (tool : Tool ρ α J) (a fa : α)
    (m : String)
    (hfound : reg.get_tool tool_call.name = some tool)
    (hacc : validate_tool_permissions tool context.user = true)
    (hval : tool.get_args_schema.model_validate tool_call.arguments =
      Except.ok a)
    (htr : reg.transform_args tool a context.user context =
      TransformOutcome.arguments fa)
    (hexec : tool.execute context fa = Except.error m) :
    (reg.execute tool_call context t1 t2).1.metadata = [] ∧
    dictGet (reg.execute tool_call context t1 t2).1.metadata
      "execution_time_ms" = none ∧
    (reg.execute tool_call context t1 t2).2.all
      (fun ev => !ev.isResultLog) = true := by
  have hpair : reg.execute tool_call context t1 t2 =
      (failureResult ("Execution failed: " ++ m),
        (if reg.audit_logger && reg.audit_config.log_tool_access_checks then
          [AuditEvent.accessCheck context.user tool_call.name true
            tool.access_groups none]
        else []) ++
        (if reg.audit_logger && reg.audit_config.log_tool_invocations then
          [AuditEvent.invocationLog context.user tool_call
            context.uiFeatures reg.audit_config.sanitize_tool_parameters]
        else [])) := by
    unfold ToolRegistry.execute
    rw [hfound]
    simp [hacc, hval, htr, hexec]
  refine ⟨?_, ?_, ?_⟩
  · rw [hpair]; rfl
  · rw [hpair]; rfl
  · rw [hpair]
    split <;> split <;> simp [AuditEvent.isResultLog]

/-- Witness for C10: for the concrete boom tool the returned failure has
empty metadata, no timing entry, and the emitted audit events contain no
result event. -/
theorem execute_body_error_no_stamp_no_result_audit_witness :
    exRegistry.get_tool "boom" = some boomTool ∧
    validate_tool_permissions boomTool exContext.user = true ∧
    boomTool.get_args_schema.model_validate 5 = Except.ok 5 ∧
    exRegistry.transform_args boomTool 5 exContext.user exContext =
      TransformOutcome.arguments 5 ∧
    boomTool.execute exContext 5 = Except.error "boom" ∧
    ((exRegistry.execute ⟨"boom", 5⟩ exContext 0 1).1.metadata = [] ∧
    dictGet (exRegistry.execute ⟨"boom", 5⟩ exContext 0 1).1.metadata
      "execution_time_ms" = none ∧
    (exRegistry.execute ⟨"boom", 5⟩ exContext 0 1).2.all
      (fun ev => !ev.isResultLog) = true) :=
  ⟨rfl, rfl, rfl, rfl, rfl,
    execute_body_error_no_stamp_no_result_audit exRegistry ⟨"boom", 5⟩
      exContext 0 1 boomTool 5 5 "boom" rfl rfl rfl rfl rfl⟩
